import Mathlib

/-!
Verification of the ideal core of `sage/rings/ideal.py`.

The Python module is shallowly embedded here.  A ring is modelled as a
structure bundling the operations the ideal code calls on rings and their
elements (`zero`, `+`, `*`, `divides`, `gcd`, `quo_rem`, comparison, and the
`isinstance(R, PrincipalIdealDomain)` capability flag).  Ring elements are the
carrier type `α`; Python `==` on elements is modelled by decidable equality on
`α`.  An ideal object is its class tag (`Ideal_generic` / `Ideal_principal` /
`Ideal_pid` / `Ideal_fractional`) together with the stored generator tuple.
Python exceptions are modelled with `Except`; inputs that cannot be coerced
into the ring are modelled as `none : Option α`.
-/

set_option autoImplicit false
set_option maxHeartbeats 1000000
set_option linter.unusedSectionVars false

deriving instance DecidableEq for Except

namespace SageModel

/-- The Python exception classes of the module.  `arithmeticError` is the
class `ideal.py` uses for out-of-range parameters (`Cyclic` and `Katsura`,
lines 410 and 437) and the kind the specification files an unbounded
base-ring cardinality under; none of the operations embedded here raises
it. -/
inductive PyErr where
  | typeError
  | notImplementedError
  | attributeError
  | indexError
  | arithmeticError
deriving DecidableEq

/-- A Python sequence value: either a tuple or a list holding the same kind of
elements.  `Ideal_generic` stores its generators as a *tuple*
(`self.__gens = tuple(gens)`), while `__nonzero__` compares against a *list*
literal, so the tuple/list distinction is observable in the source. -/
inductive PySeq (α : Type) where
  | tup (xs : List α)
  | lst (xs : List α)

/-- Python equality on sequence values: a tuple and a list are never equal,
whatever their entries; two tuples (or two lists) are equal iff their entries
are elementwise equal. -/
def PySeq.pyEq {α : Type} [DecidableEq α] : PySeq α → PySeq α → Bool
  | PySeq.tup xs, PySeq.tup ys => decide (xs = ys)
  | PySeq.lst xs, PySeq.lst ys => decide (xs = ys)
  | _, _ => false

/-- The interface of a commutative ring as consumed by `ideal.py`: the ring
constant `0`, element arithmetic, the element methods `divides`, `gcd` and
`quo_rem`, the Python-2 `cmp` on elements, and the
`isinstance(R, PrincipalIdealDomain)` classification flag. -/
structure SageRing (α : Type) where
  zero : α
  add : α → α → α
  mul : α → α → α
  divides : α → α → Bool
  gcd : α → α → α
  quoRem : α → α → α × α
  elemCmp : α → α → Int
  isPID : Bool

/-- The Python class of an ideal object: `Ideal_generic`, `Ideal_principal`,
`Ideal_pid` (subclass of `Ideal_principal`) or `Ideal_fractional`
(subclass of `Ideal_generic`). -/
inductive IdealKind where
  | generic
  | principal
  | pid
  | fractional
deriving DecidableEq

/-- An ideal object: its class tag and the stored generator tuple
`self.__gens`. -/
structure SageIdeal (α : Type) where
  kind : IdealKind
  gens : List α
deriving DecidableEq

/-- Lines 127-129 of the factory: an empty generator list is replaced by
`[R(0)]`.  (Coercion of elements already lying in the ring is the
identity, so the `coerce` re-mapping on line 131-132 is not represented.) -/
def normalizeGens {α : Type} (R : SageRing α) (gens : List α) : List α :=
  if gens.isEmpty then [R.zero] else gens

/-- Lines 135-145 of the factory, applied to the already-deduplicated
generator list: a PID ring gets an `Ideal_pid` whose sole generator is the
left-fold GCD of the generators
(`g = gens[0]; for h in gens[1:]: g = R.gcd(g, h)`); otherwise a single
generator gives `Ideal_principal` and several give `Ideal_generic`.  (The
factory never reaches this point with an empty list; the `[]` branch mirrors
the `IndexError` of `gens[0]` by producing an impossible empty ideal.) -/
def classifyGens {α : Type} (R : SageRing α) (gens : List α) : SageIdeal α :=
  if R.isPID then
    match gens with
    | [] => { kind := IdealKind.pid, gens := [] }
    | g :: rest => { kind := IdealKind.pid, gens := [rest.foldl R.gcd g] }
  else if gens.length = 1 then
    { kind := IdealKind.principal, gens := gens }
  else
    { kind := IdealKind.generic, gens := gens }

/-- The core of the `Ideal` factory (lines 127-145): normalize the empty list,
deduplicate via `gens = list(set(gens))`, then classify.  The Python `set` type
enumerates in an unspecified order; it is modelled by `List.dedup`. -/
def makeIdeal {α : Type} [DecidableEq α] (R : SageRing α) (rawGens : List α) :
    SageIdeal α :=
  classifyGens R ((normalizeGens R rawGens).dedup)

/-- `Ideal_generic.__nonzero__` (lines 188-189):
`return self.gens() != [self.ring()(0)]`.  The left operand is the stored
generator *tuple*, the right operand a one-element *list*: Python never
considers these equal, so the method is the negation of a comparison that is
constantly false. -/
def nonzeroM {α : Type} [DecidableEq α] (R : SageRing α) (I : SageIdeal α) : Bool :=
  ! PySeq.pyEq (PySeq.tup I.gens) (PySeq.lst [R.zero])

/-- `is_zero` on an ideal is the negation of `__nonzero__` (Python truth
value). -/
def isZeroM {α : Type} [DecidableEq α] (R : SageRing α) (I : SageIdeal α) : Bool :=
  ! nonzeroM R I

/-- `is_principal` (lines 256-259, overridden at line 308-309): the principal
classes return `True`; the generic classes return `True` when at most one
generator is stored and raise `NotImplementedError` otherwise. -/
def isPrincipalMethodM {α : Type} (I : SageIdeal α) : Except PyErr Bool :=
  match I.kind with
  | IdealKind.principal => Except.ok true
  | IdealKind.pid => Except.ok true
  | _ =>
    if I.gens.length ≤ 1 then Except.ok true
    else Except.error PyErr.notImplementedError

/-- `isinstance(other, Ideal_principal)`: true exactly for the
`Ideal_principal` and `Ideal_pid` classes. -/
def isPrincipalInstance {α : Type} (I : SageIdeal α) : Bool :=
  match I.kind with
  | IdealKind.principal => true
  | IdealKind.pid => true
  | _ => false

/-- Attribute lookup of `gen()` followed by `self.gens()[0]` (lines 311-312):
only the principal classes define `gen`, so the generic classes raise
`AttributeError`; an empty generator tuple would raise `IndexError`. -/
def genM {α : Type} (I : SageIdeal α) : Except PyErr α :=
  match I.kind with
  | IdealKind.generic => Except.error PyErr.attributeError
  | IdealKind.fractional => Except.error PyErr.attributeError
  | _ =>
    match I.gens with
    | [] => Except.error PyErr.indexError
    | g :: _ => Except.ok g

/-- The membership test `x in I` as dispatched by Python.  For the generic
classes it is `Ideal_generic.__contains__` (lines 178-182): coercion failure
(`none`) is caught and yields `False`, and a coercible input reaches
`_contains_`, which raises `NotImplementedError` (line 186).  The principal
classes override it with `Ideal_principal.__contains__` (lines 314-317), which
performs no coercion and no exception handling: on an uncoercible input the
element call (`x.is_zero()` resp. `self.gen().divides(x)`) itself raises. -/
def membershipTest {α : Type} [DecidableEq α] (R : SageRing α) (I : SageIdeal α)
    (x : Option α) : Except PyErr Bool :=
  match I.kind with
  | IdealKind.generic =>
    match x with
    | none => Except.ok false
    | some _ => Except.error PyErr.notImplementedError
  | IdealKind.fractional =>
    match x with
    | none => Except.ok false
    | some _ => Except.error PyErr.notImplementedError
  | _ =>
    match I.gens with
    | [] => Except.error PyErr.indexError
    | g :: _ =>
      match x with
      | none =>
        if g = R.zero then Except.error PyErr.attributeError
        else Except.error PyErr.typeError
      | some y =>
        Except.ok (if g = R.zero then decide (y = R.zero) else R.divides g y)

/-- Python-2 `cmp` on tuples: lexicographic comparison, a proper initial segment
being smaller. -/
def cmpList {α : Type} (c : α → α → Int) : List α → List α → Int
  | [], [] => 0
  | [], _ :: _ => -1
  | _ :: _, [] => 1
  | x :: xs, y :: ys => if c x y = 0 then cmpList c xs ys else c x y

/-- `Ideal_generic.__cmp__` (lines 171-176): equal (0) when the generator
*sets* coincide, otherwise Python-2 `cmp` of the generator tuples. -/
def cmpGeneric {α : Type} [DecidableEq α] (R : SageRing α)
    (I other : SageIdeal α) : Int :=
  if I.gens.toFinset = other.gens.toFinset then 0
  else cmpList R.elemCmp I.gens other.gens

/-- `Ideal_principal.__cmp__` (lines 319-336): consult `other.is_principal()`
(which may raise), sort before a non-principal ideal, handle zero ideals via
`is_zero`, and otherwise test mutual divisibility of the two generators. -/
def cmpPrincipal {α : Type} [DecidableEq α] (R : SageRing α)
    (I other : SageIdeal α) : Except PyErr Int :=
  match isPrincipalMethodM other with
  | Except.error e => Except.error e
  | Except.ok false => Except.ok (-1)
  | Except.ok true =>
    if isZeroM R I then
      if ! isZeroM R other then Except.ok (-1) else Except.ok 0
    else
      match genM other with
      | Except.error e => Except.error e
      | Except.ok g0 =>
        match genM I with
        | Except.error e => Except.error e
        | Except.ok g1 =>
          if R.divides g0 g1 && R.divides g1 g0 then Except.ok 0
          else Except.ok 1

/-- The comparison Python dispatches for `I == J` / `cmp(I, J)`: the
`__cmp__` of the class of the left operand, i.e. `cmpPrincipal` for the principal classes and `cmpGeneric`
(which never raises) for the generic ones. -/
def cmpIdeal {α : Type} [DecidableEq α] (R : SageRing α)
    (I other : SageIdeal α) : Except PyErr Int :=
  match I.kind with
  | IdealKind.principal => cmpPrincipal R I other
  | IdealKind.pid => cmpPrincipal R I other
  | _ => Except.ok (cmpGeneric R I other)

/-- `Ideal_pid.reduce` (lines 358-373): coerce `f` (identity here), return `f`
when the generator equals the ring zero, else the remainder of
`f.quo_rem(self.gen())`. -/
def reduceM {α : Type} [DecidableEq α] (R : SageRing α) (I : SageIdeal α)
    (f : α) : Except PyErr α :=
  match I.gens with
  | [] => Except.error PyErr.indexError
  | g :: _ =>
    if g = R.zero then Except.ok f
    else Except.ok (R.quoRem f g).2

/-- `Ideal_pid.gcd` (lines 375-381): for a principal-class `other`, the ideal
generated by `self.gen().gcd(other.gen())` (rebuilt through the factory by
`self.ring().ideal(...)`); otherwise evaluate `self.gen() in other` and return
`other` on success; otherwise raise `NotImplementedError`.  A raising
membership test propagates. -/
def gcdM {α : Type} [DecidableEq α] (R : SageRing α) (I other : SageIdeal α) :
    Except PyErr (SageIdeal α) :=
  match I.gens with
  | [] => Except.error PyErr.indexError
  | g :: _ =>
    if isPrincipalInstance other then
      match other.gens with
      | [] => Except.error PyErr.indexError
      | h :: _ => Except.ok (makeIdeal R [R.gcd g h])
    else
      match membershipTest R other (some g) with
      | Except.ok true => Except.ok other
      | Except.ok false => Except.error PyErr.notImplementedError
      | Except.error e => Except.error e

/-- `Ideal_pid.__add__` (lines 353-356):
`return self.ring().ideal(self.gcd(other))` — the factory is re-run on the
generator tuple of the ideal `gcd` produced (factory lines 120-121). -/
def addM {α : Type} [DecidableEq α] (R : SageRing α) (I other : SageIdeal α) :
    Except PyErr (SageIdeal α) :=
  match gcdM R I other with
  | Except.error e => Except.error e
  | Except.ok J => Except.ok (makeIdeal R J.gens)

/-- The shapes the first argument of the top-level `Ideal` factory
(lines 98-115) can take once inputs are restricted to one modelled ring: an
explicit ring together with a generator list, a bare collection of ring
elements passed as the sole argument, or a single ring element. -/
inductive IdealArg (α : Type) where
  | ringAndGens (gens : List α)
  | collection (elts : List α)
  | element (x : α)

/-- The top-level dispatch of `Ideal` (lines 98-145).  A collection is used as
the generator list only when it is non-empty (`len(R) > 0`, line 101); an
empty collection falls through to the `R.parent()` lookup, which fails on a
list and raises `TypeError` (lines 107-115). -/
def IdealTop {α : Type} [DecidableEq α] (R : SageRing α) (arg : IdealArg α) :
    Except PyErr (SageIdeal α) :=
  match arg with
  | IdealArg.ringAndGens gens => Except.ok (makeIdeal R gens)
  | IdealArg.collection elts =>
    if 0 < elts.length then Except.ok (makeIdeal R elts)
    else Except.error PyErr.typeError
  | IdealArg.element x => Except.ok (makeIdeal R [x])

/-- The extra interface `FieldIdeal` consumes: the variable list of the ring
`R.gens()`, element power and subtraction, and `R.base_ring().order()`
(`none` modelling `infinity`). -/
structure GenRing (α : Type) where
  base : SageRing α
  pow : α → Nat → α
  sub : α → α → α
  ringGens : List α
  baseOrder : Option Nat

/-- `FieldIdeal` (lines 448-464): raise when the order of the base ring is
infinite, else build the ideal generated by `x**q - x` over the variables of
the ring. -/
def FieldIdeal {α : Type} [DecidableEq α] (R : GenRing α) :
    Except PyErr (SageIdeal α) :=
  match R.baseOrder with
  | none => Except.error PyErr.typeError
  | some q =>
    Except.ok (makeIdeal R.base (R.ringGens.map (fun x => R.sub (R.pow x q) x)))

/-- The integer ring `ZZ` as an instance of the ring interface: Sage `ZZ` is
a `PrincipalIdealDomain`, its `gcd` returns the non-negative GCD, and
`quo_rem` is floor division (remainder carrying the sign of the divisor). -/
def intRing : SageRing Int where
  zero := 0
  add := fun a b => a + b
  mul := fun a b => a * b
  divides := fun a b => decide (a ∣ b)
  gcd := fun a b => (Int.gcd a b : Int)
  quoRem := fun f g => (Int.fdiv f g, Int.fmod f g)
  elemCmp := fun a b => if a < b then -1 else if a = b then 0 else 1
  isPID := true

/-- A ring of the `GenRing` interface whose base ring has finite order 2:
carrier ℤ, one variable `3`.  (The carrier only needs to support the element
operations `FieldIdeal` uses.) -/
def finBaseRing : GenRing Int where
  base := intRing
  pow := fun x n => x ^ n
  sub := fun a b => a - b
  ringGens := [3]
  baseOrder := some 2

/-- The same ring with an infinite base ring
(`R.base_ring().order() == infinity`). -/
def infBaseRing : GenRing Int where
  base := intRing
  pow := fun x n => x ^ n
  sub := fun a b => a - b
  ringGens := [3]
  baseOrder := none

/-- The greatest-common-divisor interface laws relied on by the GCD fold of
the `Ideal` factory, phrased with the `divides` oracle of the ring. -/
structure DividesGcdLaws {α : Type} (R : SageRing α) : Prop where
  dvd_refl : ∀ a, R.divides a a = true
  dvd_trans : ∀ a b c, R.divides a b = true → R.divides b c = true →
    R.divides a c = true
  gcd_dvd_left : ∀ a b, R.divides (R.gcd a b) a = true
  gcd_dvd_right : ∀ a b, R.divides (R.gcd a b) b = true
  dvd_gcd : ∀ c a b, R.divides c a = true → R.divides c b = true →
    R.divides c (R.gcd a b) = true

/-- `g` is a greatest common divisor of the list `l` with respect to the
`divides` oracle of the ring. -/
def IsGcdOf {α : Type} (R : SageRing α) (g : α) (l : List α) : Prop :=
  (∀ x ∈ l, R.divides g x = true) ∧
  ∀ c, (∀ x ∈ l, R.divides c x = true) → R.divides c g = true

section Helpers

variable {α : Type} [DecidableEq α]

/-- A one-element list is its own deduplication. -/
theorem dedup_single (a : α) : ([a] : List α).dedup = [a] := by
  rw [show ([a] : List α) = a :: [] from rfl,
    List.dedup_cons_of_not_mem (List.not_mem_nil a), List.dedup_nil]

/-- Generator normalization never returns the empty list. -/
theorem normalizeGens_ne_nil (R : SageRing α) (gens : List α) :
    normalizeGens R gens ≠ [] := by
  cases gens <;> simp [normalizeGens]

/-- Deduplication of a non-empty list is non-empty. -/
theorem dedup_ne_nil {l : List α} (h : l ≠ []) : l.dedup ≠ [] := by
  intro h'
  exact h ((List.dedup_eq_nil l).mp h')

/-- Normalization is the identity on non-empty lists. -/
theorem normalizeGens_of_ne_nil (R : SageRing α) {gens : List α}
    (h : gens ≠ []) : normalizeGens R gens = gens := by
  cases gens with
  | nil => exact absurd rfl h
  | cons x xs => rfl

/-- In Python a tuple never equals a list. -/
theorem pyEq_tup_lst (xs ys : List α) :
    PySeq.pyEq (PySeq.tup xs) (PySeq.lst ys) = false := rfl

/-- Because `__nonzero__` compares the generator tuple with a list literal,
every ideal object is truthy. -/
theorem nonzeroM_eq_true (R : SageRing α) (I : SageIdeal α) :
    nonzeroM R I = true := rfl

/-- Consequently `is_zero` is constantly false. -/
theorem isZeroM_eq_false (R : SageRing α) (I : SageIdeal α) :
    isZeroM R I = false := rfl

/-- Evaluation of the PID classification on a non-empty deduplicated list. -/
theorem classifyGens_pid (R : SageRing α) (hpid : R.isPID = true)
    (g : α) (rest : List α) :
    classifyGens R (g :: rest)
      = SageIdeal.mk IdealKind.pid [rest.foldl R.gcd g] := by
  simp [classifyGens, hpid]

/-- Evaluation of the non-PID classification on a singleton list. -/
theorem classifyGens_single (R : SageRing α) (hpid : R.isPID = false) (g : α) :
    classifyGens R [g] = SageIdeal.mk IdealKind.principal [g] := by
  simp [classifyGens, hpid]

/-- Evaluation of the non-PID classification on a longer list. -/
theorem classifyGens_generic (R : SageRing α) (hpid : R.isPID = false)
    (gens : List α) (hlen : gens.length ≠ 1) :
    classifyGens R gens = SageIdeal.mk IdealKind.generic gens := by
  simp [classifyGens, hpid, hlen]

/-- Over a PID ring, a one-generator factory call produces the `Ideal_pid`
with exactly that generator. -/
theorem makeIdeal_single_pid (R : SageRing α) (hpid : R.isPID = true) (x : α) :
    makeIdeal R [x] = SageIdeal.mk IdealKind.pid [x] := by
  unfold makeIdeal
  rw [normalizeGens_of_ne_nil R (by simp), dedup_single, classifyGens_pid R hpid]
  rfl

/-- The GCD left fold of the factory computes a greatest common divisor (with
respect to the `divides` oracle of the ring) of all the folded elements. -/
theorem foldl_gcd_spec {R : SageRing α} (laws : DividesGcdLaws R) :
    ∀ (rest : List α) (g0 : α), IsGcdOf R (rest.foldl R.gcd g0) (g0 :: rest) := by
  intro rest
  induction rest with
  | nil =>
    intro g0
    refine ⟨?_, ?_⟩
    · intro x hx
      rw [List.mem_singleton.mp hx]
      exact laws.dvd_refl (([] : List α).foldl R.gcd g0)
    · intro c hc
      exact hc g0 (List.mem_singleton.mpr rfl)
  | cons h t ih =>
    intro g0
    have IH := ih (R.gcd g0 h)
    rw [List.foldl_cons]
    refine ⟨?_, ?_⟩
    · intro x hx
      rcases List.mem_cons.mp hx with hx0 | hx1
      · rw [hx0]
        exact laws.dvd_trans _ _ _ (IH.1 (R.gcd g0 h) (List.mem_cons_self _ _))
          (laws.gcd_dvd_left g0 h)
      rcases List.mem_cons.mp hx1 with hx2 | hx3
      · rw [hx2]
        exact laws.dvd_trans _ _ _ (IH.1 (R.gcd g0 h) (List.mem_cons_self _ _))
          (laws.gcd_dvd_right g0 h)
      · exact IH.1 x (List.mem_cons_of_mem _ hx3)
    · intro c hc
      apply IH.2
      intro x hx
      rcases List.mem_cons.mp hx with hx0 | hx1
      · rw [hx0]
        exact laws.dvd_gcd c g0 h (hc g0 (List.mem_cons_self _ _))
          (hc h (List.mem_cons_of_mem _ (List.mem_cons_self _ _)))
      · exact hc x (List.mem_cons_of_mem _ (List.mem_cons_of_mem _ hx1))

/-- Two greatest common divisors of lists with the same members divide each
other. -/
theorem isGcdOf_mutual {R : SageRing α} {g1 g2 : α} {l1 l2 : List α}
    (h1 : IsGcdOf R g1 l1) (h2 : IsGcdOf R g2 l2)
    (hmem : ∀ x, x ∈ l1 ↔ x ∈ l2) :
    R.divides g2 g1 = true ∧ R.divides g1 g2 = true := by
  refine ⟨?_, ?_⟩
  · apply h1.2 g2
    intro x hx
    exact h2.1 x ((hmem x).mp hx)
  · apply h2.2 g1
    intro x hx
    exact h1.1 x ((hmem x).mpr hx)

/-- `Ideal_principal.__cmp__` on two one-generator principal-class ideals is
the mutual-divisibility test. -/
theorem cmpPrincipal_eval (R : SageRing α) (k1 k2 : IdealKind) (a b : α)
    (h1 : k1 = IdealKind.principal ∨ k1 = IdealKind.pid)
    (h2 : k2 = IdealKind.principal ∨ k2 = IdealKind.pid) :
    cmpPrincipal R (SageIdeal.mk k1 [a]) (SageIdeal.mk k2 [b])
      = if R.divides b a && R.divides a b then Except.ok 0 else Except.ok 1 := by
  rcases h1 with h1 | h1 <;> rcases h2 with h2 | h2 <;> subst h1 <;> subst h2 <;> rfl

/-- Python-2 tuple comparison is zero exactly on equal tuples, provided the
element comparison is zero exactly on equal elements. -/
theorem cmpList_eq_zero_iff {c : α → α → Int}
    (hc : ∀ a b : α, c a b = 0 ↔ a = b) :
    ∀ l1 l2 : List α, cmpList c l1 l2 = 0 ↔ l1 = l2 := by
  intro l1
  induction l1 with
  | nil =>
    intro l2
    cases l2 <;> simp [cmpList]
  | cons x xs ih =>
    intro l2
    cases l2 with
    | nil => simp [cmpList]
    | cons y ys =>
      simp only [cmpList]
      by_cases hxy : c x y = 0
      · rw [if_pos hxy]
        have hx : x = y := (hc x y).mp hxy
        subst hx
        rw [ih ys]
        simp
      · rw [if_neg hxy]
        constructor
        · intro h
          exact absurd h hxy
        · intro h
          injection h with h1 h2
          exact absurd ((hc x y).mpr h1) hxy

/-- The divisibility oracle of the integer model agrees with mathematical
divisibility. -/
theorem intDividesCorrect (a b : Int) :
    intRing.divides a b = true ↔ ∃ c, b = intRing.mul a c := by
  constructor
  · intro h
    exact dvd_def.mp (of_decide_eq_true h)
  · intro h
    exact decide_eq_true (dvd_def.mpr h)

/-- The integer model satisfies the GCD interface laws. -/
theorem intGcdLaws : DividesGcdLaws intRing := by
  refine ⟨?_, ?_, ?_, ?_, ?_⟩
  · intro a
    exact decide_eq_true (dvd_refl a)
  · intro a b c h1 h2
    exact decide_eq_true (dvd_trans (of_decide_eq_true h1) (of_decide_eq_true h2))
  · intro a b
    exact decide_eq_true Int.gcd_dvd_left
  · intro a b
    exact decide_eq_true Int.gcd_dvd_right
  · intro c a b h1 h2
    exact decide_eq_true (Int.dvd_gcd (of_decide_eq_true h1) (of_decide_eq_true h2))

/-- Floor quotient-remainder of the integer model reconstructs the dividend:
the `quo_rem` contract the PID reduction relies on. -/
theorem intQuoRemLaw (f g : Int) (hg : g ≠ intRing.zero) :
    f = intRing.add (intRing.mul (intRing.quoRem f g).1 g) (intRing.quoRem f g).2 := by
  show f = (Int.fdiv f g) * g + Int.fmod f g
  have h := Int.fdiv_add_fmod f g
  calc f = g * Int.fdiv f g + Int.fmod f g := h.symm
    _ = Int.fdiv f g * g + Int.fmod f g := by ring

/-- Python-2 `cmp` of the integer model is zero exactly on equal integers. -/
theorem intCmpLaw (a b : Int) : intRing.elemCmp a b = 0 ↔ a = b := by
  show (if a < b then (-1 : Int) else if a = b then 0 else 1) = 0 ↔ a = b
  split_ifs with h1 h2
  · constructor
    · intro h
      exact absurd h (by decide)
    · intro h
      omega
  · constructor
    · intro _
      exact h2
    · intro _
      rfl
  · constructor
    · intro h
      exact absurd h (by decide)
    · intro h
      exact absurd h h2

end Helpers

section Claims

/-- Claim C1: over a principal ideal domain the factory always returns an
`Ideal_pid` with exactly one stored generator, namely the left-fold GCD of the
deduplicated generator list; in particular the generator of
`makeIdeal(R,[a,b])` is the GCD of `a` and `b` up to a unit factor (mutual
divisibility). -/
theorem claim_C1_pid_single_generator (α : Type) [DecidableEq α]
    (R : SageRing α) (hpid : R.isPID = true) (laws : DividesGcdLaws R) :
    (∀ gens : List α, gens ≠ [] →
      (makeIdeal R gens).kind = IdealKind.pid
      ∧ (makeIdeal R gens).gens.length = 1
      ∧ ∀ g rest, gens.dedup = g :: rest →
          (makeIdeal R gens).gens = [rest.foldl R.gcd g])
    ∧ (∀ a b g : α, (makeIdeal R [a, b]).gens = [g] →
        R.divides g (R.gcd a b) = true ∧ R.divides (R.gcd a b) g = true) := by
  constructor
  · intro gens hne
    have hnorm : normalizeGens R gens = gens := normalizeGens_of_ne_nil R hne
    cases hd : gens.dedup with
    | nil => exact absurd ((List.dedup_eq_nil gens).mp hd) hne
    | cons g rest =>
      have hmk : makeIdeal R gens = SageIdeal.mk IdealKind.pid [rest.foldl R.gcd g] := by
        unfold makeIdeal
        rw [hnorm, hd, classifyGens_pid R hpid]
      refine ⟨by rw [hmk], by rw [hmk]; rfl, ?_⟩
      intro g' rest' hd'
      injection hd' with e1 e2
      rw [hmk, ← e1, ← e2]
  · intro a b g hg
    by_cases hab : a = b
    · have hd : ([a, b] : List α).dedup = [b] := by
        rw [show ([a, b] : List α) = a :: [b] from rfl,
          List.dedup_cons_of_mem (by rw [hab]; exact List.mem_singleton.mpr rfl),
          dedup_single]
      have hmk : makeIdeal R [a, b] = SageIdeal.mk IdealKind.pid [b] := by
        unfold makeIdeal
        rw [normalizeGens_of_ne_nil R (by simp), hd, classifyGens_pid R hpid]
        rfl
      rw [hmk] at hg
      injection hg with e1 _
      rw [← e1, hab]
      exact ⟨laws.dvd_gcd b b b (laws.dvd_refl b) (laws.dvd_refl b),
        laws.gcd_dvd_left b b⟩
    · have hd : ([a, b] : List α).dedup = [a, b] := by
        rw [show ([a, b] : List α) = a :: [b] from rfl,
          List.dedup_cons_of_not_mem (by simp [hab]), dedup_single]
      have hmk : makeIdeal R [a, b] = SageIdeal.mk IdealKind.pid [R.gcd a b] := by
        unfold makeIdeal
        rw [normalizeGens_of_ne_nil R (by simp), hd, classifyGens_pid R hpid]
        rfl
      rw [hmk] at hg
      injection hg with e1 _
      rw [← e1]
      exact ⟨laws.dvd_refl (R.gcd a b), laws.dvd_refl (R.gcd a b)⟩

/-- Witness for C1 at the integer ring: a three-generator call still yields a
single-generator `Ideal_pid`. -/
theorem claim_C1_witness :
    intRing.isPID = true
    ∧ (makeIdeal intRing [4, 6, 8]).kind = IdealKind.pid
    ∧ (makeIdeal intRing [4, 6, 8]).gens.length = 1 :=
  ⟨by decide,
    ((claim_C1_pid_single_generator Int intRing (by decide) intGcdLaws).1
      [4, 6, 8] (by decide)).1,
    ((claim_C1_pid_single_generator Int intRing (by decide) intGcdLaws).1
      [4, 6, 8] (by decide)).2.1⟩

/-- Claim C2 (code evaluation): `Ideal_generic.__nonzero__` compares the
stored generator *tuple* against a one-element *list*, which in Python is
always unequal, so every ideal tests as non-zero; in particular the zero
ideal built from an empty generator list, whose stored generators are exactly
`[ring zero]`, still reports itself non-zero, contradicting the specified
zero-test. -/
theorem claim_C2_zero_test_code_eval :
    (∀ (α : Type) [DecidableEq α] (R : SageRing α) (I : SageIdeal α),
      nonzeroM R I = true)
    ∧ nonzeroM intRing (makeIdeal intRing []) = true
    ∧ (makeIdeal intRing []).gens = [intRing.zero] := by
  refine ⟨?_, rfl, by decide⟩
  intro α _ R I
  rfl

/-- Claim C3: membership in a principal-class ideal `(g)` is the test
`g divides x`, except that a zero generator reduces it to `x == 0`. -/
theorem claim_C3_principal_containment (α : Type) [DecidableEq α]
    (R : SageRing α)
    (hdiv : ∀ a b : α, R.divides a b = true ↔ ∃ c, b = R.mul a c)
    (I : SageIdeal α) (g : α)
    (hk : I.kind = IdealKind.principal ∨ I.kind = IdealKind.pid)
    (hg : I.gens = [g]) (x : α) :
    (g ≠ R.zero →
      (membershipTest R I (some x) = Except.ok true ↔ ∃ c, x = R.mul g c))
    ∧ (g = R.zero →
      (membershipTest R I (some x) = Except.ok true ↔ x = R.zero)) := by
  obtain ⟨k, gs⟩ := I
  simp only at hg
  subst hg
  have hm : membershipTest R (SageIdeal.mk k [g]) (some x)
      = Except.ok (if g = R.zero then decide (x = R.zero) else R.divides g x) := by
    rcases hk with hk | hk <;> simp only at hk <;> subst hk <;> rfl
  rw [hm]
  constructor
  · intro hgz
    rw [if_neg hgz]
    constructor
    · intro h
      injection h with h'
      exact (hdiv g x).mp h'
    · intro h
      rw [(hdiv g x).mpr h]
  · intro hgz
    rw [if_pos hgz]
    constructor
    · intro h
      injection h with h'
      exact of_decide_eq_true h'
    · intro h
      rw [decide_eq_true h]

/-- Witness for C3 at the integer ring: `6` lies in the ideal `(2)` and `5`
does not. -/
theorem claim_C3_witness :
    ((2 : Int) ≠ intRing.zero)
    ∧ membershipTest intRing (makeIdeal intRing [2]) (some 6) = Except.ok true
    ∧ membershipTest intRing (makeIdeal intRing [2]) (some 5) ≠ Except.ok true :=
  ⟨by decide,
    ((claim_C3_principal_containment Int intRing intDividesCorrect
        (makeIdeal intRing [2]) 2 (Or.inr (by decide)) (by decide) 6).1
      (by decide)).mpr ⟨3, by decide⟩,
    fun h =>
      absurd (((claim_C3_principal_containment Int intRing intDividesCorrect
          (makeIdeal intRing [2]) 2 (Or.inr (by decide)) (by decide) 5).1
        (by decide)).mp h)
        (by rintro ⟨c, hc⟩; have h5 : (5 : Int) = 2 * c := hc; omega)⟩

/-- Claim C4: `Ideal_pid.reduce` returns `f` unchanged for a zero generator
and otherwise the remainder of `f.quo_rem(g)`, so that `f` minus the result
is a multiple of `g`. -/
theorem claim_C4_pid_reduce (α : Type) [DecidableEq α] (R : SageRing α)
    (hq : ∀ f g : α, g ≠ R.zero →
      f = R.add (R.mul (R.quoRem f g).1 g) (R.quoRem f g).2)
    (I : SageIdeal α) (g : α) (hk : I.kind = IdealKind.pid)
    (hg : I.gens = [g]) (f : α) :
    (g = R.zero → reduceM R I f = Except.ok f)
    ∧ (g ≠ R.zero →
        reduceM R I f = Except.ok (R.quoRem f g).2
        ∧ ∃ q r, reduceM R I f = Except.ok r ∧ f = R.add (R.mul q g) r) := by
  have hred : reduceM R I f
      = (if g = R.zero then Except.ok f else Except.ok (R.quoRem f g).2) := by
    unfold reduceM
    rw [hg]
  constructor
  · intro hgz
    rw [hred, if_pos hgz]
  · intro hgz
    rw [hred, if_neg hgz]
    exact ⟨rfl, (R.quoRem f g).1, (R.quoRem f g).2, rfl, hq f g hgz⟩

/-- Witness for C4: over the integers, `makeIdeal(ZZ,[8]).reduce(10) = 2`,
and `10 - 2` is the multiple `1 * 8` of the generator. -/
theorem claim_C4_witness :
    ((8 : Int) ≠ intRing.zero)
    ∧ reduceM intRing (makeIdeal intRing [8]) 10 = Except.ok 2 := by
  refine ⟨by decide, ?_⟩
  have h := (claim_C4_pid_reduce Int intRing intQuoRemLaw
    (makeIdeal intRing [8]) 8 (by decide) (by decide) 10).2 (by decide)
  rw [h.1]
  decide

/-- Claim C6 (amended): only the generic-class membership test catches a
failed coercion and returns `False`; the principal classes override
`__contains__` without any exception handling. -/
theorem claim_C6_generic_uncoercible (α : Type) [DecidableEq α]
    (R : SageRing α) (I : SageIdeal α)
    (hk : I.kind = IdealKind.generic ∨ I.kind = IdealKind.fractional) :
    membershipTest R I none = Except.ok false := by
  obtain ⟨k, gs⟩ := I
  rcases hk with hk | hk <;> simp only at hk <;> subst hk <;> rfl

/-- Witness for C6 on a generic-class ideal with an uncoercible input. -/
theorem claim_C6_witness :
    membershipTest intRing (SageIdeal.mk IdealKind.generic [4, 6]) none
      = Except.ok false :=
  claim_C6_generic_uncoercible Int intRing
    (SageIdeal.mk IdealKind.generic [4, 6]) (Or.inl rfl)

/-- Counterexample for C6 as stated: for a principal-class ideal (here the
factory-built `Ideal_pid` `(2)` over the integers) an uncoercible input makes
the membership test raise instead of returning `False`. -/
theorem claim_C6_counterexample :
    membershipTest intRing (makeIdeal intRing [2]) none
      = Except.error PyErr.typeError
    ∧ membershipTest intRing (makeIdeal intRing [2]) none ≠ Except.ok false :=
  ⟨by decide, by decide⟩

/-- Claim C7 (amended): `Ideal_pid.gcd` and `Ideal_pid.__add__` produce the
ideal generated by the GCD of the two generators whenever `other` is an
instance of the principal classes; when `other` is a generic-class ideal the
evaluation of `self.gen() in other` itself raises `NotImplementedError`, so
the operation fails for every non-principal operand of this module. -/
theorem claim_C7_pid_sum (α : Type) [DecidableEq α] (R : SageRing α)
    (hpid : R.isPID = true) :
    (∀ (I other : SageIdeal α) (g h : α) (r1 r2 : List α),
      I.gens = g :: r1 → isPrincipalInstance other = true →
      other.gens = h :: r2 →
      gcdM R I other = Except.ok (SageIdeal.mk IdealKind.pid [R.gcd g h])
      ∧ addM R I other = Except.ok (SageIdeal.mk IdealKind.pid [R.gcd g h]))
    ∧ (∀ (I other : SageIdeal α) (g : α) (r1 : List α),
      I.gens = g :: r1 → other.kind = IdealKind.generic →
      gcdM R I other = Except.error PyErr.notImplementedError
      ∧ addM R I other = Except.error PyErr.notImplementedError) := by
  constructor
  · intro I other g h r1 r2 hI hinst hother
    obtain ⟨kI, gsI⟩ := I
    obtain ⟨kO, gsO⟩ := other
    simp only at hI hother
    subst hI
    subst hother
    cases kO with
    | generic => exact absurd hinst (by simp [isPrincipalInstance])
    | fractional => exact absurd hinst (by simp [isPrincipalInstance])
    | principal =>
      refine ⟨?_, ?_⟩
      · show Except.ok (makeIdeal R [R.gcd g h]) = _
        rw [makeIdeal_single_pid R hpid]
      · show Except.ok (makeIdeal R ((makeIdeal R [R.gcd g h]).gens)) = _
        rw [makeIdeal_single_pid R hpid]
        show Except.ok (makeIdeal R [R.gcd g h]) = _
        rw [makeIdeal_single_pid R hpid]
    | pid =>
      refine ⟨?_, ?_⟩
      · show Except.ok (makeIdeal R [R.gcd g h]) = _
        rw [makeIdeal_single_pid R hpid]
      · show Except.ok (makeIdeal R ((makeIdeal R [R.gcd g h]).gens)) = _
        rw [makeIdeal_single_pid R hpid]
        show Except.ok (makeIdeal R [R.gcd g h]) = _
        rw [makeIdeal_single_pid R hpid]
  · intro I other g r1 hI hother
    obtain ⟨kI, gsI⟩ := I
    obtain ⟨kO, gsO⟩ := other
    simp only at hI hother
    subst hI
    subst hother
    exact ⟨rfl, rfl⟩

/-- Witness for C7: `makeIdeal(ZZ,[4]) + makeIdeal(ZZ,[6])` is the principal
ideal with generator `2 = gcd(4, 6)`. -/
theorem claim_C7_witness :
    addM intRing (makeIdeal intRing [4]) (makeIdeal intRing [6])
      = Except.ok (SageIdeal.mk IdealKind.pid [2])
    ∧ gcdM intRing (makeIdeal intRing [4]) (makeIdeal intRing [6])
      = Except.ok (SageIdeal.mk IdealKind.pid [2]) := by
  have h := (claim_C7_pid_sum Int intRing (by decide)).1 (makeIdeal intRing [4])
    (makeIdeal intRing [6]) 4 6 [] [] (by decide) (by decide) (by decide)
  constructor
  · rw [h.2]
    decide
  · rw [h.1]
    decide

/-- Counterexample for C7 as stated: for the non-principal operand
`Ideal_generic(ZZ, [4, 6])` the generator `4` of the PID ideal lies inside
the ideal generated by `{4, 6}` (it is itself a listed generator,
`4 = 1*4 + 0*6`), yet `gcd` raises `NotImplementedError` instead of
returning the operand. -/
theorem claim_C7_counterexample :
    ((4 : Int) = 1 * 4 + 0 * 6)
    ∧ gcdM intRing (makeIdeal intRing [4])
        (SageIdeal.mk IdealKind.generic [4, 6])
      = Except.error PyErr.notImplementedError
    ∧ gcdM intRing (makeIdeal intRing [4])
        (SageIdeal.mk IdealKind.generic [4, 6])
      ≠ Except.ok (SageIdeal.mk IdealKind.generic [4, 6]) :=
  ⟨by decide, by decide, by decide⟩

/-- Claim C8 (amended): comparing a principal-class ideal against a
multi-generator generic-class ideal does not sort it first: the comparison
calls `other.is_principal()`, which raises `NotImplementedError` for every
generic ideal of this module that stores more than one generator, and the
error propagates. -/
theorem claim_C8_cmp_nonprincipal (α : Type) [DecidableEq α] (R : SageRing α)
    (I J : SageIdeal α) (hI : isPrincipalInstance I = true)
    (hJ : J.kind = IdealKind.generic) (hlen : 2 ≤ J.gens.length) :
    cmpIdeal R I J = Except.error PyErr.notImplementedError := by
  have hm : isPrincipalMethodM J = Except.error PyErr.notImplementedError := by
    unfold isPrincipalMethodM
    rw [hJ]
    rw [if_neg (by omega)]
  have hc : cmpPrincipal R I J = Except.error PyErr.notImplementedError := by
    unfold cmpPrincipal
    rw [hm]
  obtain ⟨k, gs⟩ := I
  cases k with
  | generic => exact absurd hI (by simp [isPrincipalInstance])
  | fractional => exact absurd hI (by simp [isPrincipalInstance])
  | principal => exact hc
  | pid => exact hc

/-- Witness for C8 at concrete ideals over the integers. -/
theorem claim_C8_witness :
    cmpIdeal intRing (makeIdeal intRing [2])
      (SageIdeal.mk IdealKind.generic [4, 6])
      = Except.error PyErr.notImplementedError :=
  claim_C8_cmp_nonprincipal Int intRing (makeIdeal intRing [2])
    (SageIdeal.mk IdealKind.generic [4, 6]) (by decide) rfl (by decide)

/-- Counterexample for C8 as stated: the comparison of a principal ideal with
a non-principal one raises instead of returning the value `-1` ("less"). -/
theorem claim_C8_counterexample :
    cmpIdeal intRing (makeIdeal intRing [5])
      (SageIdeal.mk IdealKind.generic [4, 6])
      = Except.error PyErr.notImplementedError
    ∧ cmpIdeal intRing (makeIdeal intRing [5])
        (SageIdeal.mk IdealKind.generic [4, 6])
      ≠ Except.ok (-1) :=
  ⟨by decide, by decide⟩

/-- Claim C9 (amended): the field-ideal helper builds the ideal generated by
`x^q - x` over the variables of the ring when the base-ring order `q` is
finite; when the order is infinite it fails, but with `TypeError` (line 462),
not with the `ArithmeticError`/`DomainError` kind the claim names. -/
theorem claim_C9_field_ideal (α : Type) [DecidableEq α] (R : GenRing α) :
    (∀ q, R.baseOrder = some q →
      FieldIdeal R = Except.ok
        (makeIdeal R.base (R.ringGens.map (fun x => R.sub (R.pow x q) x))))
    ∧ (R.baseOrder = none → FieldIdeal R = Except.error PyErr.typeError) := by
  constructor
  · intro q h
    unfold FieldIdeal
    rw [h]
  · intro h
    unfold FieldIdeal
    rw [h]

/-- Witness for C9: with base order `2` and the single variable `3` the
helper returns the ideal generated by `3^2 - 3 = 6`; with infinite base
order it raises. -/
theorem claim_C9_witness :
    FieldIdeal finBaseRing = Except.ok (SageIdeal.mk IdealKind.pid [6])
    ∧ FieldIdeal infBaseRing = Except.error PyErr.typeError := by
  constructor
  · have h := (claim_C9_field_ideal Int finBaseRing).1 2 rfl
    rw [h]
    decide
  · exact (claim_C9_field_ideal Int infBaseRing).2 rfl

/-- Counterexample for C9 as stated: on a ring with an infinite base ring the
helper raises `TypeError` (the kind the specification reserves for type
resolution failures), not the claimed `ArithmeticError`/`DomainError`
kind. -/
theorem claim_C9_counterexample :
    FieldIdeal infBaseRing = Except.error PyErr.typeError
    ∧ FieldIdeal infBaseRing ≠ Except.error PyErr.arithmeticError :=
  ⟨rfl, by decide⟩

/-- Claim C10: calling the factory on a bare empty collection raises
`TypeError` (the collection shorthand demands a non-empty collection), while
an empty generator list next to an explicit ring is normalized to the zero
ideal with stored generator list `[ring zero]`. -/
theorem claim_C10_empty_collection (α : Type) [DecidableEq α]
    (R : SageRing α) :
    IdealTop R (IdealArg.collection []) = Except.error PyErr.typeError
    ∧ IdealTop R (IdealArg.ringAndGens []) = Except.ok (makeIdeal R [])
    ∧ (makeIdeal R []).gens = [R.zero] := by
  refine ⟨rfl, rfl, ?_⟩
  have hnorm : normalizeGens R ([] : List α) = [R.zero] := rfl
  have hd : (normalizeGens R ([] : List α)).dedup = [R.zero] := by
    rw [hnorm, dedup_single]
  show (classifyGens R ((normalizeGens R ([] : List α)).dedup)).gens = [R.zero]
  rw [hd]
  cases hpid : R.isPID with
  | true =>
    rw [classifyGens_pid R hpid]
    rfl
  | false => rw [classifyGens_single R hpid]

/-- The generic comparison is zero exactly on equal generator sets, provided
element comparison is zero exactly on equal elements. -/
theorem cmpGeneric_eq_zero_iff {α : Type} [DecidableEq α] {R : SageRing α}
    (hcmp : ∀ a b : α, R.elemCmp a b = 0 ↔ a = b) (I J : SageIdeal α) :
    cmpGeneric R I J = 0 ↔ I.gens.toFinset = J.gens.toFinset := by
  unfold cmpGeneric
  by_cases hf : I.gens.toFinset = J.gens.toFinset
  · rw [if_pos hf]
    simp [hf]
  · rw [if_neg hf]
    rw [cmpList_eq_zero_iff hcmp]
    constructor
    · intro h
      exact absurd (by rw [h]) hf
    · intro h
      exact absurd h hf

/-- Claim C5 (amended): generator sequences with permuted deduplications
produce ideals that compare equal, and for a generic-class ideal comparing
equal is *equivalent* to generator-set equality; for the principal classes
only the forward direction survives (mutual divisibility can identify
distinct generator sets). -/
theorem claim_C5_generator_sets (α : Type) [DecidableEq α] (R : SageRing α)
    (laws : DividesGcdLaws R)
    (hcmp : ∀ a b : α, R.elemCmp a b = 0 ↔ a = b) :
    (∀ g1 g2 : List α, g1.dedup.Perm g2.dedup →
      cmpIdeal R (makeIdeal R g1) (makeIdeal R g2) = Except.ok 0)
    ∧ (∀ I J : SageIdeal α, I.kind = IdealKind.generic →
      (cmpIdeal R I J = Except.ok 0 ↔ I.gens.toFinset = J.gens.toFinset)) := by
  constructor
  · intro g1 g2 hperm
    have hd : ((normalizeGens R g1).dedup).Perm ((normalizeGens R g2).dedup) := by
      cases g1 with
      | nil =>
        cases g2 with
        | nil => exact List.Perm.refl _
        | cons y ys =>
          exfalso
          have h0 : (y :: ys).dedup = [] :=
            List.Perm.eq_nil (by simpa using hperm.symm)
          exact dedup_ne_nil (by simp) h0
      | cons x xs =>
        cases g2 with
        | nil =>
          exfalso
          have h0 : (x :: xs).dedup = [] :=
            List.Perm.eq_nil (by simpa using hperm)
          exact dedup_ne_nil (by simp) h0
        | cons y ys => simpa [normalizeGens] using hperm
    have hne1 : (normalizeGens R g1).dedup ≠ [] :=
      dedup_ne_nil (normalizeGens_ne_nil R g1)
    have hne2 : (normalizeGens R g2).dedup ≠ [] :=
      dedup_ne_nil (normalizeGens_ne_nil R g2)
    obtain ⟨a, r1, hd1⟩ := List.exists_cons_of_ne_nil hne1
    obtain ⟨b, r2, hd2⟩ := List.exists_cons_of_ne_nil hne2
    cases hpid : R.isPID with
    | true =>
      have hmk1 : makeIdeal R g1 = SageIdeal.mk IdealKind.pid [r1.foldl R.gcd a] := by
        unfold makeIdeal
        rw [hd1, classifyGens_pid R hpid]
      have hmk2 : makeIdeal R g2 = SageIdeal.mk IdealKind.pid [r2.foldl R.gcd b] := by
        unfold makeIdeal
        rw [hd2, classifyGens_pid R hpid]
      have hmemiff : ∀ x, x ∈ a :: r1 ↔ x ∈ b :: r2 := by
        intro x
        rw [← hd1, ← hd2]
        exact hd.mem_iff
      have hmut := isGcdOf_mutual (foldl_gcd_spec laws r1 a)
        (foldl_gcd_spec laws r2 b) hmemiff
      rw [hmk1, hmk2]
      show cmpPrincipal R (SageIdeal.mk IdealKind.pid [r1.foldl R.gcd a])
        (SageIdeal.mk IdealKind.pid [r2.foldl R.gcd b]) = Except.ok 0
      rw [cmpPrincipal_eval R _ _ _ _ (Or.inr rfl) (Or.inr rfl)]
      simp [hmut.1, hmut.2]
    | false =>
      have hlen : (normalizeGens R g1).dedup.length
          = (normalizeGens R g2).dedup.length := hd.length_eq
      by_cases h1 : (normalizeGens R g1).dedup.length = 1
      · obtain ⟨x, hx⟩ := List.length_eq_one.mp h1
        obtain ⟨y, hy⟩ := List.length_eq_one.mp (hlen ▸ h1)
        have hxy : x = y := by
          have hp := hd
          rw [hx, hy] at hp
          simpa using hp.mem_iff.mp (List.mem_singleton.mpr rfl)
        have hmk1 : makeIdeal R g1 = SageIdeal.mk IdealKind.principal [x] := by
          unfold makeIdeal
          rw [hx, classifyGens_single R hpid]
        have hmk2 : makeIdeal R g2 = SageIdeal.mk IdealKind.principal [y] := by
          unfold makeIdeal
          rw [hy, classifyGens_single R hpid]
        rw [hmk1, hmk2, ← hxy]
        show cmpPrincipal R (SageIdeal.mk IdealKind.principal [x])
          (SageIdeal.mk IdealKind.principal [x]) = Except.ok 0
        rw [cmpPrincipal_eval R _ _ _ _ (Or.inl rfl) (Or.inl rfl)]
        simp [laws.dvd_refl x]
      · have hlen2 : (normalizeGens R g2).dedup.length ≠ 1 := by
          rw [← hlen]
          exact h1
        have hmk1 : makeIdeal R g1
            = SageIdeal.mk IdealKind.generic ((normalizeGens R g1).dedup) := by
          unfold makeIdeal
          rw [classifyGens_generic R hpid _ h1]
        have hmk2 : makeIdeal R g2
            = SageIdeal.mk IdealKind.generic ((normalizeGens R g2).dedup) := by
          unfold makeIdeal
          rw [classifyGens_generic R hpid _ hlen2]
        have hfin : ((normalizeGens R g1).dedup).toFinset
            = ((normalizeGens R g2).dedup).toFinset := by
          apply Finset.ext
          intro x
          rw [List.mem_toFinset, List.mem_toFinset]
          exact hd.mem_iff
        have hzero := (cmpGeneric_eq_zero_iff hcmp
          (SageIdeal.mk IdealKind.generic ((normalizeGens R g1).dedup))
          (SageIdeal.mk IdealKind.generic ((normalizeGens R g2).dedup))).mpr
          (by simpa using hfin)
        rw [hmk1, hmk2]
        show Except.ok (cmpGeneric R
          (SageIdeal.mk IdealKind.generic ((normalizeGens R g1).dedup))
          (SageIdeal.mk IdealKind.generic ((normalizeGens R g2).dedup)))
          = Except.ok 0
        rw [hzero]
  · intro I J hk
    have hcg : cmpIdeal R I J = Except.ok (cmpGeneric R I J) := by
      obtain ⟨k, gs⟩ := I
      simp only at hk
      subst hk
      rfl
    rw [hcg]
    constructor
    · intro h
      injection h with h'
      exact (cmpGeneric_eq_zero_iff hcmp I J).mp h'
    · intro h
      rw [(cmpGeneric_eq_zero_iff hcmp I J).mpr h]

/-- Witness for C5: two permuted generator lists over the integers yield
ideals that compare equal. -/
theorem claim_C5_witness :
    cmpIdeal intRing (makeIdeal intRing [4, 6]) (makeIdeal intRing [6, 4])
      = Except.ok 0 :=
  (claim_C5_generator_sets Int intRing intGcdLaws intCmpLaw).1 [4, 6] [6, 4]
    (by decide)

/-- Counterexample for C5 as stated: the factory-built principal ideals `(6)`
and `(-6)` over the integers compare equal (their generators divide each
other) although their generator sets `{6}` and `{-6}` differ, so comparing
equal does not imply generator-set equality. -/
theorem claim_C5_counterexample :
    cmpIdeal intRing (makeIdeal intRing [6]) (makeIdeal intRing [-6])
      = Except.ok 0
    ∧ (makeIdeal intRing [6]).gens.toFinset
      ≠ (makeIdeal intRing [-6]).gens.toFinset :=
  ⟨by decide, by decide⟩

end Claims

end SageModel
